import Mathlib

/-!
Shallow embedding of the arbitrage opportunity engine of this repository.

The core code lives in `backend/app/services/arbitrage_service.py`
(`ArbitrageAnalyzer`), with the data model in
`backend/app/models/price_history.py` and
`backend/app/models/arbitrage_opportunity.py`, the request schemas in
`backend/app/schemas/opportunity.py` and the API surface in
`backend/app/api/v1/opportunities.py`.

Decimal arithmetic is modelled with `ℚ`, timestamps with `ℕ`, database
tables with lists of rows. `round(x, 2)` (Python banker's rounding) is
modelled by `roundTo2` below.
-/

/-- Python `round` to an integer: round half to even (banker's rounding). -/
def roundHalfEven (y : ℚ) : ℤ :=
  if y - ⌊y⌋ < 1/2 then ⌊y⌋
  else if 1/2 < y - ⌊y⌋ then ⌊y⌋ + 1
  else if 2 ∣ ⌊y⌋ then ⌊y⌋ else ⌊y⌋ + 1

/-- Python `round(x, 2)`: round to two decimal places, half to even. -/
def roundTo2 (x : ℚ) : ℚ := (roundHalfEven (100 * x) : ℚ) / 100

/-- Clamp `x` into `[lo, hi]` (the spec's `clip`). -/
def clip (x lo hi : ℚ) : ℚ := max lo (min x hi)

/-- One row of the `price_history` table (`models/price_history.py`):
product, price, `recorded_at` timestamp and optional `seller_count`. -/
structure PriceRow where
  product_id : ℕ
  price : ℚ
  recorded_at : ℕ
  seller_count : Option ℤ
deriving DecidableEq, Repr

/-- One row of the `product_singles` table (`models/arbitrage_opportunity.py`,
`ProductSingle`): a composition edge from a sealed product to a single. -/
structure SingleRow where
  sealed_product_id : ℕ
  single_product_id : ℕ
  quantity : ℤ
deriving DecidableEq, Repr

/-- The database contents the analyzer reads. -/
structure DB where
  product_singles : List SingleRow
  price_history : List PriceRow
deriving DecidableEq, Repr

/-- All `price_history` rows for one product. -/
def priceRowsOf (db : DB) (pid : ℕ) : List PriceRow :=
  db.price_history.filter (fun p => p.product_id = pid)

/-- Maximum of a list of timestamps (the SQL `func.max` scalar subquery);
`none` on the empty set (SQL `NULL`). -/
def maxTs : List ℕ → Option ℕ
  | [] => none
  | t :: ts =>
    match maxTs ts with
    | none => some t
    | some m => some (max t m)

/-- Rows of a product whose `recorded_at` equals the product's maximum
`recorded_at` (the correlated-subquery filter in
`ArbitrageAnalyzer._calculate_singles_value_with_db`). -/
def latestRowsOf (db : DB) (pid : ℕ) : List PriceRow :=
  (priceRowsOf db pid).filter
    (fun p => some p.recorded_at = maxTs ((priceRowsOf db pid).map (fun q => q.recorded_at)))

/-- Composition edges of one sealed product. -/
def edgesOf (db : DB) (sid : ℕ) : List SingleRow :=
  db.product_singles.filter (fun e => e.sealed_product_id = sid)

/-- The `(quantity, price)` rows returned by the join in
`_calculate_singles_value_with_db`: one row per pair of a composition edge
and a price-history row of its single attaining that single's maximum
`recorded_at`. -/
def singles_data (db : DB) (sid : ℕ) : List (ℤ × ℚ) :=
  (edgesOf db sid).flatMap
    (fun e => (latestRowsOf db e.single_product_id).map (fun p => (e.quantity, p.price)))

/-- `ArbitrageAnalyzer._calculate_singles_value_with_db`: `None` when the
join returns no rows, otherwise the sum of `quantity * price`. -/
def calculate_singles_value_with_db (db : DB) (sid : ℕ) : Option ℚ :=
  let rows := singles_data db sid
  if rows.isEmpty then none
  else some (rows.foldl (fun acc qp => acc + (qp.1 : ℚ) * qp.2) 0)

/-- First row of the sealed product's price history under `ORDER BY
recorded_at DESC`, realized as the first row attaining the maximum
`recorded_at` (`ArbitrageAnalyzer._get_latest_price_with_db`). -/
def get_latest_row_with_db (db : DB) (pid : ℕ) : Option PriceRow :=
  (priceRowsOf db pid).foldl
    (fun acc p =>
      match acc with
      | none => some p
      | some q => if q.recorded_at < p.recorded_at then some p else some q)
    none

/-- `ArbitrageAnalyzer._get_latest_price_with_db`: the price of the first
row under `ORDER BY recorded_at DESC`, or `None`. -/
def get_latest_price_with_db (db : DB) (pid : ℕ) : Option ℚ :=
  (get_latest_row_with_db db pid).map (fun p => p.price)

/-- A query result the SQL `ORDER BY recorded_at DESC ... first()` may
return: the head of some ordering of the product's rows that is consistent
with the `ORDER BY` clause. The clause names no secondary sort key, so any
such ordering is admissible. -/
def possible_latest (db : DB) (pid : ℕ) (r : PriceRow) : Prop :=
  ∃ l : List PriceRow, l.Perm (priceRowsOf db pid) ∧
    l.Pairwise (fun a b => b.recorded_at ≤ a.recorded_at) ∧ l.head? = some r

/-- Mock `ArbitrageAnalyzer._get_seller_count`: always `8`. -/
def get_seller_count (_ : ℕ) : ℤ := 8

/-- Mock `ArbitrageAnalyzer._get_price_volatility`: always `15.0`. -/
def get_price_volatility (_ : ℕ) : ℚ := 15

/-- Mock `ArbitrageAnalyzer._get_volume_consistency`: always `0.75`. -/
def get_volume_consistency (_ : ℕ) : ℚ := 3/4

/-- The `price_stability` factor of `_calculate_confidence`. -/
def price_stability_factor (vol : ℚ) : ℚ := max 0 (1 - vol / 50)

/-- The `seller_count` factor of `_calculate_confidence`. -/
def seller_count_factor (s : ℤ) : ℚ :=
  if s ≤ 5 then 9/10 else if s ≤ 10 then 7/10 else 3/10

/-- The `margin_size` factor of `_calculate_confidence`. -/
def margin_size_factor (m : ℚ) : ℚ :=
  if 200 < m then 1/2 else if 100 < m then 8/10 else if 50 < m then 1 else 7/10

/-- The weighted sum of `_calculate_confidence`, as a function of the four
factor inputs (weights `0.3, 0.2, 0.2, 0.3`), rounded to two decimals. -/
def confidence_from_factors (vol : ℚ) (s : ℤ) (vc m : ℚ) : ℚ :=
  roundTo2 (3/10 * price_stability_factor vol + 2/10 * seller_count_factor s
    + 2/10 * vc + 3/10 * margin_size_factor m)

/-- `ArbitrageAnalyzer._calculate_confidence`, wired to the product's
signal computations as in the source. -/
def calculate_confidence (pid : ℕ) (m : ℚ) : ℚ :=
  confidence_from_factors (get_price_volatility pid) (get_seller_count pid)
    (get_volume_consistency pid) m

/-- `ArbitrageAnalyzer._assess_risk_level`. -/
def assess_risk_level (margin confidence : ℚ) : String :=
  if 8/10 ≤ confidence ∧ 50 ≤ margin then "low"
  else if 6/10 ≤ confidence ∧ 30 ≤ margin then "medium"
  else "high"

/-- The fields of an `ArbitrageOpportunity` record the core reads or
writes (`models/arbitrage_opportunity.py`); store-assigned `id` and
timestamps `created_at`, `updated_at` are omitted. -/
structure ArbitrageOpportunity where
  sealed_product_id : ℕ
  sealed_price : ℚ
  singles_value : ℚ
  margin_percentage : ℚ
  confidence_score : ℚ
  risk_level : String
  seller_count : Option ℤ
  status : String
  execution_quantity : ℤ
  execution_notes : Option String
  expires_at : Option ℕ
  executed_at : Option ℕ
deriving DecidableEq, Repr

/-- `ArbitrageAnalyzer._get_latest_price`: runs the query when a session
is available; any store failure is caught and turned into `None`. -/
def get_latest_price (sdb : Except String DB) (pid : ℕ) : Option ℚ :=
  match sdb with
  | Except.error _ => none
  | Except.ok db => get_latest_price_with_db db pid

/-- `ArbitrageAnalyzer._calculate_singles_value`: runs the query when a
session is available; any store failure is caught and turned into `None`. -/
def calculate_singles_value (sdb : Except String DB) (pid : ℕ) : Option ℚ :=
  match sdb with
  | Except.error _ => none
  | Except.ok db => calculate_singles_value_with_db db pid

/-- `ArbitrageAnalyzer.analyze_sealed_product` (lines 40-117): the whole
body runs under a `try/except` that maps any exception to `None`; store
failures are already caught inside the two helpers. The Python falsiness
guards `if not sealed_price` / `if not singles_value` reject `0` as well
as `None`. `threshold` is `settings.MIN_MARGIN_THRESHOLD` (default 25),
`now` the current hour count, `expires_at = now + 24h`. -/
def analyze_sealed_product (threshold : ℚ) (sdb : Except String DB)
    (pid now : ℕ) : Option ArbitrageOpportunity :=
  match get_latest_price sdb pid with
  | none => none
  | some sealed_price =>
    if sealed_price = 0 then none
    else
      match calculate_singles_value sdb pid with
      | none => none
      | some singles_value =>
        if singles_value = 0 then none
        else if (singles_value * (1 - 15/100) - sealed_price) / sealed_price * 100
            < threshold then none
        else
          some { sealed_product_id := pid
                 sealed_price := sealed_price
                 singles_value := singles_value
                 margin_percentage :=
                   (singles_value * (1 - 15/100) - sealed_price) / sealed_price * 100
                 confidence_score := calculate_confidence pid
                   ((singles_value * (1 - 15/100) - sealed_price) / sealed_price * 100)
                 risk_level := assess_risk_level
                   ((singles_value * (1 - 15/100) - sealed_price) / sealed_price * 100)
                   (calculate_confidence pid
                     ((singles_value * (1 - 15/100) - sealed_price) / sealed_price * 100))
                 seller_count := some (get_seller_count pid)
                 status := "active"
                 execution_quantity := 0
                 execution_notes := none
                 expires_at := some (now + 24)
                 executed_at := none }

/-- The error kinds of section 7 of the design that the lifecycle
operations surface. -/
inductive ServiceError where
  | invalidState : ServiceError
  | invalidArgument : ServiceError
deriving DecidableEq, Repr

/-- Modelled from the spec: `OpportunityService.execute_opportunity` is
imported by `api/v1/opportunities.py` from
`app/services/opportunity_service.py`, a module that is not under `src/`.
Spec 4.6: "`execute(quantity, notes)`: active → executed only; fails
InvalidState if current status ≠ active; fails InvalidArgument if
quantity ∉ [1,100]; sets execution_quantity, execution_notes,
executed_at." The quantity bounds agree with the `OpportunityExecution`
schema in `app/schemas/opportunity.py` (`ge=1, le=100`). -/
def execute_opportunity (o : ArbitrageOpportunity) (quantity : ℤ)
    (notes : Option String) (now : ℕ) : Except ServiceError ArbitrageOpportunity :=
  if o.status = "active" then
    if 1 ≤ quantity ∧ quantity ≤ 100 then
      Except.ok { o with
        status := "executed"
        execution_quantity := quantity
        execution_notes := notes
        executed_at := some now }
    else Except.error ServiceError.invalidArgument
  else Except.error ServiceError.invalidState

/-- Modelled from the spec: `OpportunityService.delete_opportunity` is
imported by `api/v1/opportunities.py` from
`app/services/opportunity_service.py`, a module that is not under `src/`.
Spec 4.6: "`cancel()`: any state → cancelled, idempotent, never
physically removes the record"; the API docstring reads "Delete an
opportunity (sets status to cancelled)". Sets the record's status. -/
def cancel_opportunity (o : ArbitrageOpportunity) : ArbitrageOpportunity :=
  { o with status := "cancelled" }

/-- Modelled from the spec: the store-level delete operation. The stored
opportunities are an association list keyed by id; an unknown id reports
NotFound (`none`); a known id marks the record cancelled in place. -/
def delete_opportunity (store : List (ℕ × ArbitrageOpportunity)) (oid : ℕ) :
    Option (List (ℕ × ArbitrageOpportunity)) :=
  if ∃ e ∈ store, e.1 = oid then
    some (store.map (fun e => if e.1 = oid then (e.1, cancel_opportunity e.2) else e))
  else none

/-- Empty database: no composition edges, no price observations. -/
def emptyDB : DB := { product_singles := [], price_history := [] }

/-- Database of the worked example of spec 8: one sealed product `1`
containing one copy of single `2`; sealed price 100, single price 150. -/
def db100 : DB :=
  { product_singles := [{ sealed_product_id := 1, single_product_id := 2, quantity := 1 }]
    price_history := [{ product_id := 1, price := 100, recorded_at := 0, seller_count := none },
                      { product_id := 2, price := 150, recorded_at := 0, seller_count := none }] }

/-- First of two price observations of product `2` sharing the maximal
timestamp `5`. -/
def tieRowA : PriceRow :=
  { product_id := 2, price := 10, recorded_at := 5, seller_count := none }

/-- Second of two price observations of product `2` sharing the maximal
timestamp `5`. -/
def tieRowB : PriceRow :=
  { product_id := 2, price := 10, recorded_at := 5, seller_count := some 1 }

/-- Database where the single's maximal `recorded_at` is attained by two
distinct observations. -/
def dbTie : DB :=
  { product_singles := [{ sealed_product_id := 1, single_product_id := 2, quantity := 1 }]
    price_history := [tieRowA, tieRowB] }

/-- Observation of product `1` at timestamp `5` with price 10. -/
def obsP10 : PriceRow :=
  { product_id := 1, price := 10, recorded_at := 5, seller_count := none }

/-- Observation of product `1` at the same timestamp `5` with price 20. -/
def obsP20 : PriceRow :=
  { product_id := 1, price := 20, recorded_at := 5, seller_count := none }

/-- Database with two price observations of product `1` tied at the
maximal timestamp but carrying different prices. -/
def dbPriceTie : DB := { product_singles := [], price_history := [obsP10, obsP20] }

/-- Latest (and only) observation of sealed product `1` in `db7`: it
carries `seller_count = 3`. -/
def sealedObs7 : PriceRow :=
  { product_id := 1, price := 100, recorded_at := 0, seller_count := some 3 }

/-- Database whose sealed-product observation records 3 sellers while the
margin qualifies for an opportunity. -/
def db7 : DB :=
  { product_singles := [{ sealed_product_id := 1, single_product_id := 2, quantity := 1 }]
    price_history := [sealedObs7,
                      { product_id := 2, price := 150, recorded_at := 0, seller_count := none }] }

/-- The opportunity produced by the analyzer on `db100` with threshold 25:
margin 27.5, mock confidence 0.71, risk high. -/
def opp100 : ArbitrageOpportunity :=
  { sealed_product_id := 1, sealed_price := 100, singles_value := 150
    margin_percentage := 55/2, confidence_score := 71/100, risk_level := "high"
    seller_count := some 8, status := "active", execution_quantity := 0
    execution_notes := none, expires_at := some 24, executed_at := none }

/-- A concrete active opportunity record used by the lifecycle claims. -/
def opp0 : ArbitrageOpportunity :=
  { sealed_product_id := 1, sealed_price := 100, singles_value := 150
    margin_percentage := 27, confidence_score := 1, risk_level := "high"
    seller_count := some 8, status := "active", execution_quantity := 0
    execution_notes := none, expires_at := some 24, executed_at := none }

/-- A one-record opportunity store holding the active record `opp0`. -/
def store0 : List (ℕ × ArbitrageOpportunity) := [(1, opp0)]

/-- The store `store0` after its record has been cancelled. -/
def store0c : List (ℕ × ArbitrageOpportunity) := [(1, cancel_opportunity opp0)]

/-! ## Helper lemmas -/

theorem floor_le_roundHalfEven (y : ℚ) : ⌊y⌋ ≤ roundHalfEven y := by
  unfold roundHalfEven; split_ifs <;> omega

theorem roundHalfEven_le_floor_add_one (y : ℚ) : roundHalfEven y ≤ ⌊y⌋ + 1 := by
  unfold roundHalfEven; split_ifs <;> omega

theorem roundHalfEven_intCast (z : ℤ) : roundHalfEven (z : ℚ) = z := by
  unfold roundHalfEven
  rw [Int.floor_intCast]
  rw [if_pos (by norm_num)]

theorem roundHalfEven_le_of_le (y : ℚ) (z : ℤ) (h : y ≤ z) : roundHalfEven y ≤ z := by
  have hfl : ⌊y⌋ ≤ z := by
    have := Int.floor_le_floor h
    rwa [Int.floor_intCast] at this
  rcases lt_or_eq_of_le hfl with hlt | heq
  · have := roundHalfEven_le_floor_add_one y
    omega
  · have h1 : (z : ℚ) ≤ y := by
      rw [← heq]; exact Int.floor_le y
    have hy : y = (z : ℚ) := le_antisymm h h1
    rw [hy, roundHalfEven_intCast]

theorem le_roundHalfEven_of_le (y : ℚ) (z : ℤ) (h : (z : ℚ) ≤ y) : z ≤ roundHalfEven y := by
  have h1 := floor_le_roundHalfEven y
  have h2 := Int.le_floor.2 h
  omega

theorem roundTo2_hundredths (z : ℤ) : roundTo2 ((z : ℚ) / 100) = (z : ℚ) / 100 := by
  unfold roundTo2
  have h : (100 : ℚ) * ((z : ℚ) / 100) = (z : ℚ) := by field_simp
  rw [h, roundHalfEven_intCast]

theorem roundTo2_nonneg (x : ℚ) (h : 0 ≤ x) : 0 ≤ roundTo2 x := by
  unfold roundTo2
  have h1 : (0 : ℤ) ≤ roundHalfEven (100 * x) :=
    le_roundHalfEven_of_le (100 * x) 0 (by positivity)
  positivity

theorem roundTo2_le_one (x : ℚ) (h : x ≤ 1) : roundTo2 x ≤ 1 := by
  unfold roundTo2
  have h1 : roundHalfEven (100 * x) ≤ (100 : ℤ) :=
    roundHalfEven_le_of_le (100 * x) 100 (by push_cast; linarith)
  rw [div_le_one (by norm_num)]
  exact_mod_cast h1

theorem maxTs_eq_none_iff (l : List ℕ) : maxTs l = none ↔ l = [] := by
  cases l with
  | nil => simp [maxTs]
  | cons t ts =>
    simp only [maxTs]
    cases maxTs ts <;> simp

theorem maxTs_mem (l : List ℕ) (m : ℕ) (h : maxTs l = some m) : m ∈ l := by
  induction l generalizing m with
  | nil => simp [maxTs] at h
  | cons t ts ih =>
    simp only [maxTs] at h
    cases hts : maxTs ts with
    | none =>
      rw [hts] at h
      simp at h
      simp [h]
    | some m2 =>
      rw [hts] at h
      simp at h
      rcases max_choice t m2 with hc | hc <;> rw [hc] at h
      · simp [h]
      · exact List.mem_cons_of_mem t (ih m (by rw [hts, h]))

theorem le_maxTs (l : List ℕ) (m x : ℕ) (h : maxTs l = some m) (hx : x ∈ l) : x ≤ m := by
  induction l generalizing m with
  | nil => simp at hx
  | cons t ts ih =>
    simp only [maxTs] at h
    cases hts : maxTs ts with
    | none =>
      rw [hts] at h
      simp at h
      have hts2 : ts = [] := (maxTs_eq_none_iff ts).1 hts
      subst hts2
      simp at hx
      omega
    | some m2 =>
      rw [hts] at h
      simp at h
      rcases List.mem_cons.1 hx with rfl | hx2
      · omega
      · have := ih m2 hts hx2
        omega

theorem foldl_add_mul_eq_sum (l : List (ℤ × ℚ)) (a : ℚ) :
    l.foldl (fun acc qp => acc + (qp.1 : ℚ) * qp.2) a
      = a + (l.map (fun qp => (qp.1 : ℚ) * qp.2)).sum := by
  induction l generalizing a with
  | nil => simp
  | cons x xs ih =>
    simp only [List.foldl_cons, List.map_cons, List.sum_cons, ih]
    ring

theorem latestRowsOf_eq_nil_iff (db : DB) (pid : ℕ) :
    latestRowsOf db pid = [] ↔ priceRowsOf db pid = [] := by
  constructor
  · intro h
    by_contra hne
    obtain ⟨m, hm⟩ : ∃ m, maxTs ((priceRowsOf db pid).map (fun q => q.recorded_at)) = some m := by
      cases hmx : maxTs ((priceRowsOf db pid).map (fun q => q.recorded_at)) with
      | none =>
        exact absurd (List.map_eq_nil_iff.1 ((maxTs_eq_none_iff _).1 hmx)) hne
      | some m => exact ⟨m, rfl⟩
    have hmem := maxTs_mem _ m hm
    obtain ⟨p, hp, hpe⟩ := List.mem_map.1 hmem
    have hlat : p ∈ latestRowsOf db pid := by
      unfold latestRowsOf
      refine List.mem_filter.2 ⟨hp, ?_⟩
      simp [hpe, hm]
    rw [h] at hlat
    simp at hlat
  · intro h
    unfold latestRowsOf
    rw [h]
    rfl

theorem singles_data_eq_nil_iff (db : DB) (sid : ℕ) :
    singles_data db sid = [] ↔
      ∀ e ∈ edgesOf db sid, priceRowsOf db e.single_product_id = [] := by
  unfold singles_data
  rw [List.flatMap_eq_nil_iff]
  constructor
  · intro h e he
    have h2 := h e he
    rw [List.map_eq_nil_iff] at h2
    exact (latestRowsOf_eq_nil_iff db e.single_product_id).1 h2
  · intro h e he
    rw [List.map_eq_nil_iff]
    exact (latestRowsOf_eq_nil_iff db e.single_product_id).2 (h e he)

theorem calculate_singles_value_none_iff (db : DB) (sid : ℕ) :
    calculate_singles_value_with_db db sid = none ↔ singles_data db sid = [] := by
  unfold calculate_singles_value_with_db
  by_cases h : (singles_data db sid).isEmpty
  · simp [h, List.isEmpty_iff.1 h]
  · simp only [h]
    simp [List.isEmpty_iff] at h
    simp [h]

theorem calculate_singles_value_some (db : DB) (sid : ℕ)
    (h : singles_data db sid ≠ []) :
    calculate_singles_value_with_db db sid =
      some (((edgesOf db sid).map (fun e =>
        ((latestRowsOf db e.single_product_id).map
          (fun p => (e.quantity : ℚ) * p.price)).sum)).sum) := by
  unfold calculate_singles_value_with_db
  have hne : (singles_data db sid).isEmpty = false := by
    simp [List.isEmpty_iff, h]
  simp only [hne, Bool.false_eq_true, if_false]
  congr 1
  rw [foldl_add_mul_eq_sum, zero_add]
  unfold singles_data
  rw [List.map_flatMap, List.flatMap_def, List.sum_flatten, List.map_map]
  congr 1
  apply List.map_congr_left
  intro e _
  simp only [Function.comp_apply, List.map_map]
  rfl

theorem analyze_eq_of_resolved (θ : ℚ) (sdb : Except String DB) (pid now : ℕ) (sp sv : ℚ)
    (hp : get_latest_price sdb pid = some sp) (hsp : ¬ sp = 0)
    (hv : calculate_singles_value sdb pid = some sv) (hsv : ¬ sv = 0) :
    analyze_sealed_product θ sdb pid now =
      if (sv * (1 - 15/100) - sp) / sp * 100 < θ then none
      else
        some { sealed_product_id := pid
               sealed_price := sp
               singles_value := sv
               margin_percentage := (sv * (1 - 15/100) - sp) / sp * 100
               confidence_score := calculate_confidence pid ((sv * (1 - 15/100) - sp) / sp * 100)
               risk_level := assess_risk_level ((sv * (1 - 15/100) - sp) / sp * 100)
                 (calculate_confidence pid ((sv * (1 - 15/100) - sp) / sp * 100))
               seller_count := some (get_seller_count pid)
               status := "active"
               execution_quantity := 0
               execution_notes := none
               expires_at := some (now + 24)
               executed_at := none } := by
  unfold analyze_sealed_product
  rw [hp, hv]
  simp [hsp, hsv]

theorem analyze_some_inv (θ : ℚ) (sdb : Except String DB) (pid now : ℕ)
    (o : ArbitrageOpportunity) (h : analyze_sealed_product θ sdb pid now = some o) :
    ∃ sp sv, get_latest_price sdb pid = some sp ∧ ¬ sp = 0 ∧
      calculate_singles_value sdb pid = some sv ∧ ¬ sv = 0 ∧
      ¬ ((sv * (1 - 15/100) - sp) / sp * 100 < θ) ∧
      o = { sealed_product_id := pid
            sealed_price := sp
            singles_value := sv
            margin_percentage := (sv * (1 - 15/100) - sp) / sp * 100
            confidence_score := calculate_confidence pid ((sv * (1 - 15/100) - sp) / sp * 100)
            risk_level := assess_risk_level ((sv * (1 - 15/100) - sp) / sp * 100)
              (calculate_confidence pid ((sv * (1 - 15/100) - sp) / sp * 100))
            seller_count := some (get_seller_count pid)
            status := "active"
            execution_quantity := 0
            execution_notes := none
            expires_at := some (now + 24)
            executed_at := none } := by
  unfold analyze_sealed_product at h
  split at h
  · exact absurd h (by simp)
  next sp hp =>
    split at h
    · exact absurd h (by simp)
    next hsp =>
      split at h
      · exact absurd h (by simp)
      next sv hv =>
        split at h
        · exact absurd h (by simp)
        next hsv =>
          split at h
          · exact absurd h (by simp)
          next hm =>
            exact ⟨sp, sv, hp, hsp, hv, hsv, hm, (Option.some_injective _ h).symm⟩

theorem price_stability_factor_15 : price_stability_factor 15 = 7/10 := by
  unfold price_stability_factor
  rw [max_eq_right] <;> norm_num

theorem seller_count_factor_8 : seller_count_factor 8 = 7/10 := by
  unfold seller_count_factor
  norm_num

theorem roundTo2_71 : roundTo2 (71/100) = 71/100 := by
  have h := roundTo2_hundredths 71
  push_cast at h
  exact h

theorem roundTo2_80 : roundTo2 (80/100) = 80/100 := by
  have h := roundTo2_hundredths 80
  push_cast at h
  exact h

theorem roundTo2_74 : roundTo2 (74/100) = 74/100 := by
  have h := roundTo2_hundredths 74
  push_cast at h
  exact h

theorem roundTo2_65 : roundTo2 (65/100) = 65/100 := by
  have h := roundTo2_hundredths 65
  push_cast at h
  exact h

theorem confidence_mock_piecewise (m : ℚ) :
    confidence_from_factors 15 8 (3/4) m =
      if m ≤ 50 then 71/100 else if m ≤ 100 then 80/100
      else if m ≤ 200 then 74/100 else 65/100 := by
  unfold confidence_from_factors
  rw [price_stability_factor_15, seller_count_factor_8]
  rcases le_or_lt m 50 with h50 | h50
  · have hmf : margin_size_factor m = 7/10 := by
      unfold margin_size_factor
      rw [if_neg (by linarith), if_neg (by linarith), if_neg (by linarith)]
    rw [hmf, if_pos h50]
    have harith : (3:ℚ)/10 * (7/10) + 2/10 * (7/10) + 2/10 * (3/4) + 3/10 * (7/10)
        = 71/100 := by norm_num
    rw [harith]
    exact roundTo2_71
  · rcases le_or_lt m 100 with h100 | h100
    · have hmf : margin_size_factor m = 1 := by
        unfold margin_size_factor
        rw [if_neg (by linarith), if_neg (by linarith), if_pos h50]
      rw [hmf, if_neg (by linarith), if_pos h100]
      have harith : (3:ℚ)/10 * (7/10) + 2/10 * (7/10) + 2/10 * (3/4) + 3/10 * 1
          = 80/100 := by norm_num
      rw [harith]
      exact roundTo2_80
    · rcases le_or_lt m 200 with h200 | h200
      · have hmf : margin_size_factor m = 8/10 := by
          unfold margin_size_factor
          rw [if_neg (by linarith), if_pos h100]
        rw [hmf, if_neg (by linarith), if_neg (by linarith), if_pos h200]
        have harith : (3:ℚ)/10 * (7/10) + 2/10 * (7/10) + 2/10 * (3/4) + 3/10 * (8/10)
            = 74/100 := by norm_num
        rw [harith]
        exact roundTo2_74
      · have hmf : margin_size_factor m = 1/2 := by
          unfold margin_size_factor
          rw [if_pos h200]
        rw [hmf, if_neg (by linarith), if_neg (by linarith), if_neg (by linarith)]
        have harith : (3:ℚ)/10 * (7/10) + 2/10 * (7/10) + 2/10 * (3/4) + 3/10 * (1/2)
            = 65/100 := by norm_num
        rw [harith]
        exact roundTo2_65

theorem assess_risk_level_low_iff (m c : ℚ) :
    assess_risk_level m c = "low" ↔ 8/10 ≤ c ∧ 50 ≤ m := by
  unfold assess_risk_level
  split_ifs with h1 h2
  · simp [h1]
  · constructor
    · intro hx; exact absurd hx (by decide)
    · intro hx; exact absurd hx h1
  · constructor
    · intro hx; exact absurd hx (by decide)
    · intro hx; exact absurd hx h1

theorem assess_risk_level_medium_iff (m c : ℚ) :
    assess_risk_level m c = "medium" ↔
      ¬ (8/10 ≤ c ∧ 50 ≤ m) ∧ (6/10 ≤ c ∧ 30 ≤ m) := by
  unfold assess_risk_level
  split_ifs with h1 h2
  · constructor
    · intro hx; exact absurd hx (by decide)
    · intro hx; exact absurd h1 hx.1
  · simp [h1, h2]
  · constructor
    · intro hx; exact absurd hx (by decide)
    · intro hx; exact absurd hx.2 h2

theorem assess_risk_level_high_iff (m c : ℚ) :
    assess_risk_level m c = "high" ↔
      ¬ (8/10 ≤ c ∧ 50 ≤ m) ∧ ¬ (6/10 ≤ c ∧ 30 ≤ m) := by
  unfold assess_risk_level
  split_ifs with h1 h2
  · constructor
    · intro hx; exact absurd hx (by decide)
    · intro hx; exact absurd h1 hx.1
  · constructor
    · intro hx; exact absurd hx (by decide)
    · intro hx; exact absurd h2 hx.2
  · simp [h1, h2]

theorem head_max_of_sorted_desc (l : List PriceRow) (r : PriceRow)
    (hs : l.Pairwise (fun a b => b.recorded_at ≤ a.recorded_at))
    (hh : l.head? = some r) (x : PriceRow) (hx : x ∈ l) :
    x.recorded_at ≤ r.recorded_at := by
  cases l with
  | nil => cases hh
  | cons a t =>
    have ha : a = r := by simpa using hh
    subst ha
    rcases List.mem_cons.1 hx with rfl | hx2
    · exact le_refl _
    · exact (List.pairwise_cons.1 hs).1 x hx2

theorem calculate_confidence_eq (pid : ℕ) (m : ℚ) :
    calculate_confidence pid m = confidence_from_factors 15 8 (3/4) m := rfl

theorem assess_risk_55_71 : assess_risk_level (55/2 : ℚ) (71/100 : ℚ) = "high" := by
  have hA : ¬ ((8:ℚ)/10 ≤ 71/100 ∧ (50:ℚ) ≤ 55/2) := by
    intro hab
    exact absurd hab.1 (by norm_num)
  have hB : ¬ ((6:ℚ)/10 ≤ 71/100 ∧ (30:ℚ) ≤ 55/2) := by
    intro hab
    exact absurd hab.2 (by norm_num)
  unfold assess_risk_level
  rw [if_neg hA, if_neg hB]

theorem singles_value_db100 : calculate_singles_value (Except.ok db100) 1 = some 150 := by
  have hsd : singles_data db100 1 = [(1, 150)] := by decide
  show calculate_singles_value_with_db db100 1 = some 150
  unfold calculate_singles_value_with_db
  rw [hsd]
  norm_num

theorem analyze_db100 : analyze_sealed_product 25 (Except.ok db100) 1 0 = some opp100 := by
  have hp : get_latest_price (Except.ok db100) 1 = some 100 := by decide
  have hv : calculate_singles_value (Except.ok db100) 1 = some 150 := singles_value_db100
  rw [analyze_eq_of_resolved 25 (Except.ok db100) 1 0 100 150 hp (by norm_num) hv (by norm_num)]
  have hm : ((150:ℚ) * (1 - 15/100) - 100) / 100 * 100 = 55/2 := by norm_num
  rw [hm]
  rw [if_neg (by norm_num : ¬ (55/2 : ℚ) < 25)]
  have hc : calculate_confidence 1 (55/2 : ℚ) = 71/100 := by
    rw [calculate_confidence_eq, confidence_mock_piecewise]
    norm_num
  rw [hc, assess_risk_55_71]
  rfl

/-! ## Claim theorems -/

/-- C1: for every sealed product whose sealed price `sp` and singles value
`sv` both resolve (to nonzero values, the analyzer's falsiness guards),
`analyze_sealed_product` computes `net = sv * (1 - 0.15)` and
`margin = ((net - sp) / sp) * 100`, yields no opportunity whenever the
margin is below the threshold, and otherwise yields an opportunity
carrying exactly that margin; the worked example (sealed 100, singles 150)
gives margin 27.5 and an opportunity is created at threshold 25. -/
theorem analyze_margin_threshold (θ : ℚ) (sdb : Except String DB) (pid now : ℕ)
    (sp sv : ℚ) (hp : get_latest_price sdb pid = some sp) (hsp : ¬ sp = 0)
    (hv : calculate_singles_value sdb pid = some sv) (hsv : ¬ sv = 0) :
    ((sv * (1 - 15/100) - sp) / sp * 100 < θ →
      analyze_sealed_product θ sdb pid now = none) ∧
    (¬ ((sv * (1 - 15/100) - sp) / sp * 100 < θ) →
      ∃ o, analyze_sealed_product θ sdb pid now = some o ∧
        o.sealed_price = sp ∧ o.singles_value = sv ∧
        o.margin_percentage = (sv * (1 - 15/100) - sp) / sp * 100) ∧
    (analyze_sealed_product 25 (Except.ok db100) 1 0).map
      (fun o => o.margin_percentage) = some (55/2) := by
  rw [analyze_eq_of_resolved θ sdb pid now sp sv hp hsp hv hsv]
  refine ⟨fun hm => by rw [if_pos hm], fun hm => ?_, ?_⟩
  · rw [if_neg hm]
    exact ⟨_, rfl, rfl, rfl, rfl⟩
  · rw [analyze_db100]
    rfl

/-- Witness for C1: the $100 sealed / $150 singles example resolves and
yields margin 27.5 with an opportunity. -/
theorem analyze_margin_threshold_witness :
    get_latest_price (Except.ok db100) 1 = some 100 ∧
    calculate_singles_value (Except.ok db100) 1 = some 150 ∧
    (analyze_sealed_product 25 (Except.ok db100) 1 0).map
      (fun o => o.margin_percentage) = some (55/2) :=
  ⟨by decide, singles_value_db100,
   (analyze_margin_threshold 25 (Except.ok db100) 1 0 100 150 (by decide) (by norm_num)
     singles_value_db100 (by norm_num)).2.2⟩

/-- C4: for any valid factor inputs (non-negative volatility, any seller
count, volume consistency in [0,1], any margin) the confidence score
equals the weighted factor sum clipped to [0,1] and rounded to two
decimals, and the result always lies in [0,1]. -/
theorem confidence_score_clipped_bounds (vol : ℚ) (s : ℤ) (vc m : ℚ)
    (hvol : 0 ≤ vol) (hvc0 : 0 ≤ vc) (hvc1 : vc ≤ 1) :
    confidence_from_factors vol s vc m =
      roundTo2 (clip (3/10 * price_stability_factor vol + 2/10 * seller_count_factor s
        + 2/10 * vc + 3/10 * margin_size_factor m) 0 1) ∧
    0 ≤ confidence_from_factors vol s vc m ∧
    confidence_from_factors vol s vc m ≤ 1 := by
  have hps0 : (0:ℚ) ≤ price_stability_factor vol := le_max_left 0 _
  have hps1 : price_stability_factor vol ≤ 1 := by
    unfold price_stability_factor
    apply max_le (by norm_num)
    have hd : (0:ℚ) ≤ vol / 50 := by positivity
    linarith
  have hsf : 3/10 ≤ seller_count_factor s ∧ seller_count_factor s ≤ 9/10 := by
    unfold seller_count_factor
    split_ifs <;> norm_num
  have hmf : 1/2 ≤ margin_size_factor m ∧ margin_size_factor m ≤ 1 := by
    unfold margin_size_factor
    split_ifs <;> norm_num
  have hx0 : 0 ≤ 3/10 * price_stability_factor vol + 2/10 * seller_count_factor s
      + 2/10 * vc + 3/10 * margin_size_factor m := by
    nlinarith [hps0, hsf.1, hmf.1, hvc0]
  have hx1 : 3/10 * price_stability_factor vol + 2/10 * seller_count_factor s
      + 2/10 * vc + 3/10 * margin_size_factor m ≤ 1 := by
    nlinarith [hps1, hsf.2, hmf.2, hvc1]
  have hclip : clip (3/10 * price_stability_factor vol + 2/10 * seller_count_factor s
      + 2/10 * vc + 3/10 * margin_size_factor m) 0 1
      = 3/10 * price_stability_factor vol + 2/10 * seller_count_factor s
        + 2/10 * vc + 3/10 * margin_size_factor m := by
    unfold clip
    rw [min_eq_left hx1, max_eq_right hx0]
  refine ⟨by rw [hclip]; rfl, ?_, ?_⟩
  · exact roundTo2_nonneg _ hx0
  · exact roundTo2_le_one _ hx1

/-- Witness for C4 at volatility 15, 8 sellers, volume consistency 0.75,
margin 60. -/
theorem confidence_score_clipped_bounds_witness :
    (0:ℚ) ≤ 15 ∧ (0:ℚ) ≤ 3/4 ∧ (3:ℚ)/4 ≤ 1 ∧
    (confidence_from_factors 15 8 (3/4) 60 =
      roundTo2 (clip (3/10 * price_stability_factor 15 + 2/10 * seller_count_factor 8
        + 2/10 * (3/4) + 3/10 * margin_size_factor 60) 0 1) ∧
     0 ≤ confidence_from_factors 15 8 (3/4) 60 ∧
     confidence_from_factors 15 8 (3/4) 60 ≤ 1) :=
  ⟨by norm_num, by norm_num, by norm_num,
   confidence_score_clipped_bounds 15 8 (3/4) 60 (by norm_num) (by norm_num) (by norm_num)⟩

/-- C5: the risk classifier is a pure total function of margin and
confidence returning "low" iff confidence ≥ 0.8 and margin ≥ 50, else
"medium" iff confidence ≥ 0.6 and margin ≥ 30, else "high", in that
order; the boundary margin 50, confidence 0.8 classifies "low". -/
theorem risk_classifier_cases (m c : ℚ) :
    (assess_risk_level m c = "low" ↔ 8/10 ≤ c ∧ 50 ≤ m) ∧
    (assess_risk_level m c = "medium" ↔
      ¬ (8/10 ≤ c ∧ 50 ≤ m) ∧ (6/10 ≤ c ∧ 30 ≤ m)) ∧
    (assess_risk_level m c = "high" ↔
      ¬ (8/10 ≤ c ∧ 50 ≤ m) ∧ ¬ (6/10 ≤ c ∧ 30 ≤ m)) ∧
    assess_risk_level 50 (8/10) = "low" :=
  ⟨assess_risk_level_low_iff m c, assess_risk_level_medium_iff m c,
   assess_risk_level_high_iff m c,
   (assess_risk_level_low_iff 50 (8/10)).2 ⟨le_refl _, le_refl _⟩⟩

/-- Witness for C5 at the boundary input margin 50, confidence 0.8. -/
theorem risk_classifier_cases_witness : assess_risk_level 50 (8/10) = "low" :=
  (risk_classifier_cases 50 (8/10)).2.2.2

/-- C9: with the implemented signal computations (volatility 15, seller
count 8, volume consistency 0.75), every produced opportunity's
confidence score is 0.71 for margin ≤ 50, 0.80 on (50, 100], 0.74 on
(100, 200] and 0.65 above 200, and its risk level is "low" exactly when
the margin lies in (50, 100]. -/
theorem produced_confidence_piecewise_low_iff (θ : ℚ) (sdb : Except String DB)
    (pid now : ℕ) (o : ArbitrageOpportunity)
    (h : analyze_sealed_product θ sdb pid now = some o) :
    (o.confidence_score =
      if o.margin_percentage ≤ 50 then (71/100 : ℚ)
      else if o.margin_percentage ≤ 100 then 80/100
      else if o.margin_percentage ≤ 200 then 74/100 else 65/100) ∧
    (o.risk_level = "low" ↔
      (50 < o.margin_percentage ∧ o.margin_percentage ≤ 100)) := by
  obtain ⟨sp, sv, hp, hsp, hv, hsv, hm, ho⟩ := analyze_some_inv θ sdb pid now o h
  subst ho
  dsimp only
  rw [calculate_confidence_eq, confidence_mock_piecewise]
  constructor
  · rfl
  · rw [assess_risk_level_low_iff]
    constructor
    · rintro ⟨h8, h50⟩
      by_cases h1 : (sv * (1 - 15/100) - sp) / sp * 100 ≤ 50
      · rw [if_pos h1] at h8
        norm_num at h8
      · by_cases h2 : (sv * (1 - 15/100) - sp) / sp * 100 ≤ 100
        · exact ⟨lt_of_not_le h1, h2⟩
        · by_cases h3 : (sv * (1 - 15/100) - sp) / sp * 100 ≤ 200
          · rw [if_neg h1, if_neg h2, if_pos h3] at h8
            norm_num at h8
          · rw [if_neg h1, if_neg h2, if_neg h3] at h8
            norm_num at h8
    · rintro ⟨h50, h100⟩
      rw [if_neg (by linarith), if_pos h100]
      exact ⟨by norm_num, by linarith⟩

/-- Witness for C9: the opportunity produced on `db100` has margin 27.5,
confidence 0.71 and is not classified "low". -/
theorem produced_confidence_piecewise_low_iff_witness :
    (opp100.confidence_score =
      if opp100.margin_percentage ≤ 50 then (71/100 : ℚ)
      else if opp100.margin_percentage ≤ 100 then 80/100
      else if opp100.margin_percentage ≤ 200 then 74/100 else 65/100) ∧
    (opp100.risk_level = "low" ↔
      (50 < opp100.margin_percentage ∧ opp100.margin_percentage ≤ 100)) :=
  produced_confidence_piecewise_low_iff 25 (Except.ok db100) 1 0 opp100 analyze_db100

/-- C2 is false as stated: in `dbTie` the one component single resolves
with latest price 10 and quantity 1, but because two observations share
the maximal `recorded_at` the join yields two rows and the valuation
returns 20, not 1 × 10 — the single is not counted exactly once. -/
theorem singles_value_double_count_tie :
    latestRowsOf dbTie 2 = [tieRowA, tieRowB] ∧
    tieRowA.price = 10 ∧ tieRowB.price = 10 ∧
    calculate_singles_value_with_db dbTie 1 = some 20 ∧
    (20 : ℚ) ≠ (1 : ℚ) * 10 := by
  refine ⟨by decide, rfl, rfl, ?_, by norm_num⟩
  have hsd : singles_data dbTie 1 = [(1, 10), (1, 10)] := by decide
  unfold calculate_singles_value_with_db
  rw [hsd]
  norm_num

/-- C2 (amended): the valuation fails (returns no value) exactly when no
component single has any price observation; a single with no observation
contributes no join row; otherwise the value is the sum, over the
component singles, of quantity × price summed over ALL observations
attaining that single's maximal `recorded_at` — one term per such
observation, hence exactly one term per resolvable single precisely when
its maximal timestamp is attained by a unique observation. -/
theorem singles_valuation_semantics (db : DB) (sid : ℕ) :
    (calculate_singles_value_with_db db sid = none ↔
      ∀ e ∈ edgesOf db sid, priceRowsOf db e.single_product_id = []) ∧
    (∀ e ∈ edgesOf db sid, priceRowsOf db e.single_product_id = [] →
      latestRowsOf db e.single_product_id = []) ∧
    (calculate_singles_value_with_db db sid = none ∨
      calculate_singles_value_with_db db sid =
        some (((edgesOf db sid).map (fun e =>
          ((latestRowsOf db e.single_product_id).map
            (fun p => (e.quantity : ℚ) * p.price)).sum)).sum)) ∧
    (∀ e : SingleRow, ∀ p : PriceRow, latestRowsOf db e.single_product_id = [p] →
      ((latestRowsOf db e.single_product_id).map
        (fun q => (e.quantity : ℚ) * q.price)).sum = (e.quantity : ℚ) * p.price) := by
  refine ⟨?_, ?_, ?_, ?_⟩
  · rw [calculate_singles_value_none_iff, singles_data_eq_nil_iff]
  · intro e _ hpr
    exact (latestRowsOf_eq_nil_iff db e.single_product_id).2 hpr
  · by_cases hsd : singles_data db sid = []
    · exact Or.inl ((calculate_singles_value_none_iff db sid).2 hsd)
    · exact Or.inr (calculate_singles_value_some db sid hsd)
  · intro e p hp
    rw [hp]
    simp

/-- C6 is false as stated: `dbPriceTie` holds two observations of product
1 tied at the maximal timestamp with different prices, and both are
possible results of the latest-price query — resolution under ties is not
determined by any stable secondary key of the data. -/
theorem latest_price_tie_two_results :
    possible_latest dbPriceTie 1 obsP10 ∧ possible_latest dbPriceTie 1 obsP20 ∧
    obsP10.price ≠ obsP20.price := by
  have hpr : priceRowsOf dbPriceTie 1 = [obsP10, obsP20] := by decide
  refine ⟨⟨[obsP10, obsP20], ?_, by decide, rfl⟩,
          ⟨[obsP20, obsP10], ?_, by decide, rfl⟩, by decide⟩
  · rw [hpr]
  · rw [hpr]
    exact List.Perm.swap obsP10 obsP20 []

/-- C6 (amended): every possible result of the latest-price query is an
observation of the product with maximal `recorded_at`; under timestamp
ties the choice among the maximal observations is unspecified (the query
orders by `recorded_at` alone, with no secondary key). -/
theorem possible_latest_is_max (db : DB) (pid : ℕ) (r : PriceRow)
    (h : possible_latest db pid r) :
    r ∈ priceRowsOf db pid ∧
    ∀ x ∈ priceRowsOf db pid, x.recorded_at ≤ r.recorded_at := by
  obtain ⟨l, hperm, hsort, hhead⟩ := h
  have hrl : r ∈ l := by
    cases l with
    | nil => cases hhead
    | cons a t =>
      have ha : a = r := by simpa using hhead
      rw [← ha]
      exact List.mem_cons_self a t
  refine ⟨hperm.mem_iff.1 hrl, fun x hx => ?_⟩
  exact head_max_of_sorted_desc l r hsort hhead x (hperm.mem_iff.2 hx)

/-- Witness for the amended C6 at `dbPriceTie`: `obsP10` is a possible
result and has maximal timestamp. -/
theorem possible_latest_is_max_witness :
    obsP10 ∈ priceRowsOf dbPriceTie 1 ∧
    ∀ x ∈ priceRowsOf dbPriceTie 1, x.recorded_at ≤ obsP10.recorded_at :=
  possible_latest_is_max dbPriceTie 1 obsP10
    ⟨[obsP10, obsP20],
     by rw [(by decide : priceRowsOf dbPriceTie 1 = [obsP10, obsP20])],
     by decide, rfl⟩

/-- C7 is false as stated: in `db7` the latest (and only) observation of
the sealed product carries seller_count 3, yet the produced opportunity
records seller_count 8 — the field is not taken from the observation. -/
theorem seller_count_not_from_observation :
    priceRowsOf db7 1 = [sealedObs7] ∧ sealedObs7.seller_count = some 3 ∧
    (analyze_sealed_product 25 (Except.ok db7) 1 0).map (fun o => o.seller_count)
      = some (some 8) ∧ some (8:ℤ) ≠ some 3 := by
  refine ⟨by decide, rfl, ?_, by decide⟩
  have hp : get_latest_price (Except.ok db7) 1 = some 100 := by decide
  have hv : calculate_singles_value (Except.ok db7) 1 = some 150 := by
    have hsd : singles_data db7 1 = [(1, 150)] := by decide
    show calculate_singles_value_with_db db7 1 = some 150
    unfold calculate_singles_value_with_db
    rw [hsd]
    norm_num
  rw [analyze_eq_of_resolved 25 (Except.ok db7) 1 0 100 150 hp (by norm_num) hv (by norm_num)]
  rw [if_neg (by norm_num : ¬ ((150:ℚ) * (1 - 15/100) - 100) / 100 * 100 < 25)]
  rfl

/-- C7 (amended): the seller_count of every produced opportunity is the
placeholder constant 8, regardless of the price observations. -/
theorem produced_seller_count_constant (θ : ℚ) (sdb : Except String DB)
    (pid now : ℕ) (o : ArbitrageOpportunity)
    (h : analyze_sealed_product θ sdb pid now = some o) :
    o.seller_count = some 8 := by
  obtain ⟨sp, sv, hp, hsp, hv, hsv, hm, ho⟩ := analyze_some_inv θ sdb pid now o h
  subst ho
  rfl

/-- Witness for the amended C7: the opportunity produced on `db100`
records seller_count 8. -/
theorem produced_seller_count_constant_witness : opp100.seller_count = some 8 :=
  produced_seller_count_constant 25 (Except.ok db100) 1 0 opp100 analyze_db100

/-- C3: execute fails InvalidState off the active state, fails
InvalidArgument on a quantity outside [1,100], and otherwise performs
exactly the active → executed transition, setting execution_quantity,
execution_notes and executed_at and touching nothing else. -/
theorem execute_opportunity_state_machine (o : ArbitrageOpportunity) (q : ℤ)
    (notes : Option String) (now : ℕ) :
    (¬ o.status = "active" →
      execute_opportunity o q notes now = Except.error ServiceError.invalidState) ∧
    (o.status = "active" → ¬ (1 ≤ q ∧ q ≤ 100) →
      execute_opportunity o q notes now = Except.error ServiceError.invalidArgument) ∧
    (o.status = "active" → 1 ≤ q → q ≤ 100 →
      execute_opportunity o q notes now = Except.ok { o with
        status := "executed"
        execution_quantity := q
        execution_notes := notes
        executed_at := some now }) ∧
    (∀ o2, execute_opportunity o q notes now = Except.ok o2 →
      o.status = "active" ∧ o2.status = "executed" ∧ o2.execution_quantity = q ∧
      o2.execution_notes = notes ∧ o2.executed_at = some now ∧
      o2.sealed_product_id = o.sealed_product_id ∧ o2.sealed_price = o.sealed_price ∧
      o2.singles_value = o.singles_value ∧
      o2.margin_percentage = o.margin_percentage ∧
      o2.confidence_score = o.confidence_score ∧ o2.risk_level = o.risk_level ∧
      o2.seller_count = o.seller_count ∧ o2.expires_at = o.expires_at) := by
  unfold execute_opportunity
  refine ⟨?_, ?_, ?_, ?_⟩
  · intro hs
    rw [if_neg hs]
  · intro hs hq
    rw [if_pos hs, if_neg hq]
  · intro hs h1 h2
    rw [if_pos hs, if_pos ⟨h1, h2⟩]
  · intro o2 h
    by_cases hs : o.status = "active"
    · rw [if_pos hs] at h
      by_cases hq : 1 ≤ q ∧ q ≤ 100
      · rw [if_pos hq] at h
        injection h with h2
        subst h2
        exact ⟨hs, rfl, rfl, rfl, rfl, rfl, rfl, rfl, rfl, rfl, rfl, rfl, rfl⟩
      · rw [if_neg hq] at h
        simp at h
    · rw [if_neg hs] at h
      simp at h

/-- Witness for C3: executing the active record `opp0` with quantity 50
succeeds and sets the execution fields. -/
theorem execute_opportunity_state_machine_witness :
    execute_opportunity opp0 50 none 7 = Except.ok { opp0 with
      status := "executed"
      execution_quantity := 50
      execution_notes := none
      executed_at := some 7 } :=
  (execute_opportunity_state_machine opp0 50 none 7).2.2.1 rfl (by norm_num) (by norm_num)

theorem delete_map_fix (store : List (ℕ × ArbitrageOpportunity)) (oid : ℕ) :
    (store.map (fun e => if e.1 = oid then (e.1, cancel_opportunity e.2) else e)).map
        (fun e => if e.1 = oid then (e.1, cancel_opportunity e.2) else e)
      = store.map (fun e => if e.1 = oid then (e.1, cancel_opportunity e.2) else e) := by
  rw [List.map_map]
  apply List.map_congr_left
  intro e _
  by_cases he : e.1 = oid
  · simp [Function.comp, he, cancel_opportunity]
  · simp [Function.comp, he]

/-- C8: the delete operation marks the record cancelled whatever its
current state, is idempotent (a second cancel succeeds and changes
nothing), never physically removes a record, and leaves all other
records untouched. -/
theorem delete_opportunity_cancels (store : List (ℕ × ArbitrageOpportunity)) (oid : ℕ)
    (s2 : List (ℕ × ArbitrageOpportunity)) (h : delete_opportunity store oid = some s2) :
    delete_opportunity s2 oid = some s2 ∧
    s2.length = store.length ∧
    (∀ e ∈ s2, e.1 = oid → e.2.status = "cancelled") ∧
    (∀ e ∈ s2, ¬ e.1 = oid → e ∈ store) := by
  unfold delete_opportunity at h
  by_cases hex : ∃ e ∈ store, e.1 = oid
  · rw [if_pos hex] at h
    injection h with h2
    subst h2
    obtain ⟨w, hw, hwid⟩ := hex
    refine ⟨?_, List.length_map store _, ?_, ?_⟩
    · have hmem : (if w.1 = oid then (w.1, cancel_opportunity w.2) else w) ∈
          store.map (fun e => if e.1 = oid then (e.1, cancel_opportunity e.2) else e) :=
        List.mem_map_of_mem _ hw
      rw [if_pos hwid] at hmem
      unfold delete_opportunity
      rw [if_pos ⟨(w.1, cancel_opportunity w.2), hmem, hwid⟩, delete_map_fix]
    · intro e he hid
      obtain ⟨a, ha, hae⟩ := List.mem_map.1 he
      by_cases h1 : a.1 = oid
      · rw [if_pos h1] at hae
        rw [← hae]
        rfl
      · rw [if_neg h1] at hae
        rw [← hae] at hid
        exact absurd hid h1
    · intro e he hid
      obtain ⟨a, ha, hae⟩ := List.mem_map.1 he
      by_cases h1 : a.1 = oid
      · rw [if_pos h1] at hae
        rw [← hae] at hid
        exact absurd h1 hid
      · rw [if_neg h1] at hae
        rw [← hae]
        exact ha
  · rw [if_neg hex] at h
    simp at h

/-- Witness for C8: cancelling the already-cancelled one-record store
`store0c` succeeds and leaves it unchanged. -/
theorem delete_opportunity_cancels_witness :
    delete_opportunity store0c 1 = some store0c :=
  (delete_opportunity_cancels store0 1 store0c (by decide)).1

/-- C10: a store failure inside the analyzer is caught and surfaces as
`none` — the same interface outcome as a valid negative result such as a
database with no price observations, making the two indistinguishable at
the call's interface. -/
theorem analyze_store_failure_none (θ : ℚ) (e : String) (pid now : ℕ) :
    analyze_sealed_product θ (Except.error e) pid now = none ∧
    analyze_sealed_product θ (Except.ok emptyDB) pid now = none ∧
    analyze_sealed_product θ (Except.error e) pid now
      = analyze_sealed_product θ (Except.ok emptyDB) pid now :=
  ⟨rfl, rfl, rfl⟩

